import Mathlib

/-!
Verification development for the khlone repository
(`src/_topublish/rhachet-brains-anthropic`).

The two files under verification are:
- `getOneBrainOutputFromStreamJson.ts` — the stream decoder, accounting
  finalizer and session reconciler;
- `genBrainCli.ts` — the process supervisor.

Shallow embedding conventions:
- JS numbers that carry money / durations are modelled as `Rat`; token
  counts as `Nat`.
- `JSON.parse` plus the subsequent optional-field reads are modelled by an
  abstract `parse : String → Option Envelope` parameter: the decoder only
  ever inspects the fields enumerated in the `Envelope` type, exactly the
  fields the source reads.
- `createHash('sha256')...` is an external library call, modelled by an
  abstract `sha : String → String` parameter.
- JS nullish coalescing `a ?? b` is `jsCoalesce`; JS truthiness of a
  number / string is "nonzero" / "nonempty".
- The promise of the decoder is modelled by a `resolution` field in the
  decoder state; `settledCount` / `detachCount` count how many times the
  promise was settled and the listeners detached (in the source these can
  happen at most once by construction; the counters make that a theorem).
- `IsoPrice` output strings (`getOneIsoPrice`, a `$`-prefixed `toFixed(10)`
  rendering) are presentation only; the metrics model carries the numeric
  `Rat` values that the source formats.
-/

namespace Khlone

/-- JS nullish coalescing `a ?? b`: keep `a` when non-nullish. -/
def jsCoalesce {α : Type} (a b : Option α) : Option α :=
  match a with
  | some x => some x
  | none => b

/-- JS `if (maybeN) cur = maybeN` — overwrite only when the value is truthy
(present and nonzero). Used for the usage token counters. -/
def setIfTruthy (cur : Nat) (v : Option Nat) : Nat :=
  match v with
  | some n => if n = 0 then cur else n
  | none => cur

/-- JS `String.prototype.trim` (ASCII whitespace suffices for the nd-JSON
protocol lines). -/
def jsTrim (s : String) : String :=
  String.mk (((s.data.dropWhile Char.isWhitespace).reverse.dropWhile
    Char.isWhitespace).reverse)

/-- JS `buffer.split('\n')`: split on every newline, keeping empty pieces,
never returning an empty list. -/
def splitLines (s : String) : List String :=
  (s.data.foldr
    (fun c acc =>
      match acc with
      | cur :: rest => if c = '\n' then [] :: (cur :: rest) else (c :: cur) :: rest
      | [] => [[c]])
    [[]]).map String.mk

/-- JS `String.prototype.startsWith`. -/
def jsStartsWith (s pre : String) : Bool :=
  pre.data.isPrefixOf s.data

/-- JS `array.join(':')`. -/
def joinColon (l : List String) : String :=
  match l with
  | [] => ""
  | x :: xs => xs.foldl (fun acc y => acc ++ ":" ++ y) x

/-- JS template interpolation of a possibly-null string (`null` renders as
`"null"`; every use site in the source guards non-null first). -/
def jsStr (s : Option String) : String :=
  match s with
  | some x => x
  | none => "null"

/-! ## Price parsing (`getOneNumericFromIsoPrice`) -/

/-- `price.replace(/[^0-9.-]/g, '')` — drop every char that is not a digit,
a dot or a minus sign. -/
def cleanPriceChars (s : String) : String :=
  String.mk (s.data.filter (fun c => c.isDigit || c = '.' || c = '-'))

/-- Parse a maximal run of decimal digits: value, digit count, rest. -/
def parseDigits : List Char → Nat → Nat → Nat × Nat × List Char
  | c :: rest, acc, cnt =>
      if c.isDigit then parseDigits rest (acc * 10 + (c.toNat - '0'.toNat)) (cnt + 1)
      else (acc, cnt, c :: rest)
  | [], acc, cnt => (acc, cnt, [])

/-- JS `Number.parseFloat` restricted to the character set that survives
`cleanPriceChars` (sign, digits, dot — no exponent can survive the clean).
Returns `none` for NaN. -/
def parseFloatRat (s : String) : Option Rat :=
  let cs := s.data
  let signed : Bool × List Char :=
    match cs with
    | '-' :: rest => (true, rest)
    | _ => (false, cs)
  let ipart := parseDigits signed.2 0 0
  match ipart.2.2 with
  | '.' :: rest =>
      let fpart := parseDigits rest 0 0
      if ipart.2.1 = 0 ∧ fpart.2.1 = 0 then none
      else
        let mag : Rat := (ipart.1 : Rat) + (fpart.1 : Rat) / ((10 : Rat) ^ fpart.2.1)
        some (if signed.1 then -mag else mag)
  | _ =>
      if ipart.2.1 = 0 then none
      else some (if signed.1 then -(ipart.1 : Rat) else (ipart.1 : Rat))

/-- `getOneNumericFromIsoPrice`: strip non-numeric chars, `parseFloat`,
`|| 0` (NaN falls back to 0; a parsed 0 is already 0). -/
def getOneNumericFromIsoPrice (price : String) : Rat :=
  match parseFloatRat (cleanPriceChars price) with
  | some v => v
  | none => 0

/-! ## Data model (`rhachet` domain objects, shapes as constructed here) -/

/-- `BrainExchange`: one prompt/response turn. -/
structure BrainExchange where
  hash : String
  input : String
  output : String
  exid : Option String
deriving DecidableEq

/-- `BrainEpisode`: one contiguous context window. -/
structure BrainEpisode where
  hash : String
  exid : Option String
  exchanges : List BrainExchange
deriving DecidableEq

/-- `BrainSeries`: durable conversation thread. -/
structure BrainSeries where
  hash : String
  exid : Option String
  episodes : List BrainEpisode
deriving DecidableEq

/-- A `{ get, set }` pair, as in the cache sub-records. -/
structure CachePair (α : Type) where
  get : α
  set : α
deriving DecidableEq

/-- `metrics.size.tokens`. -/
structure SizeTokens where
  input : Nat
  output : Nat
  cache : CachePair Nat
deriving DecidableEq

/-- `metrics.size.chars`. -/
structure SizeChars where
  input : Nat
  output : Nat
  cache : CachePair Nat
deriving DecidableEq

/-- `metrics.cost.cash.deets` — per-category costs (numeric values of the
IsoPrice strings the source formats). -/
structure CashDeets where
  input : Rat
  output : Rat
  cache : CachePair Rat
deriving DecidableEq

/-- `metrics.cost.cash`. -/
structure CostCash where
  total : Rat
  deets : CashDeets
deriving DecidableEq

/-- `metrics.cost.time`. -/
structure CostTime where
  milliseconds : Rat
deriving DecidableEq

/-- `metrics.size`. -/
structure MetricsSize where
  tokens : SizeTokens
  chars : SizeChars
deriving DecidableEq

/-- `metrics.cost`. -/
structure MetricsCost where
  time : CostTime
  cash : CostCash
deriving DecidableEq

/-- `BrainOutputMetrics`. -/
structure BrainOutputMetrics where
  size : MetricsSize
  cost : MetricsCost
deriving DecidableEq

/-- `BrainOutput<string>`. -/
structure BrainOutput where
  output : String
  metrics : BrainOutputMetrics
  episode : BrainEpisode
  series : BrainSeries
deriving DecidableEq

/-- `input.spec.cost.cash` — the per-category IsoPrice rate strings. -/
structure CashRates where
  input : String
  output : String
  cache : CachePair String
deriving DecidableEq

/-- The per-call inputs of `getOneBrainOutputFromStreamJson` (minus the
stream itself, which is fed as events). -/
structure DecoderInput where
  prompt : String
  rates : CashRates
  seriesPrior : Option BrainSeries
deriving DecidableEq

/-! ## Decoded envelopes

The decoder reads only the fields below from each parsed JSON line; a line
is modelled as `Option Envelope` (`none` = non-JSON / unrecognized shape).
Option-typed fields model optional / nullable JSON fields; the nested
optional chains of the source (`message?.usage?.input_tokens`) are carried
flattened where the source reads them through a single chain. -/

/-- A `usage` record (top-level result usage, assistant message usage, or
`message_delta` usage). -/
structure Usage where
  input_tokens : Option Nat
  output_tokens : Option Nat
  cache_creation_input_tokens : Option Nat
  cache_read_input_tokens : Option Nat
deriving DecidableEq

/-- An assistant content block (`{ type, text? }`). -/
structure ContentBlock where
  btype : String
  text : Option String
deriving DecidableEq

/-- An assistant `message` (`{ content?, usage? }`). -/
structure AssistantMessage where
  content : Option (List ContentBlock)
  usage : Option Usage
deriving DecidableEq

/-- A `content_block_delta` payload (`{ type?, text? }`). -/
structure DeltaPayload where
  dtype : Option String
  text : Option String
deriving DecidableEq

/-- The inner anthropic API events wrapped by `stream_event`.
`message_start` carries `message?.usage?.input_tokens` flattened. -/
inductive InnerEvent where
  | message_start (usage_input_tokens : Option Nat)
  | content_block_delta (delta : Option DeltaPayload)
  | message_delta (usage : Option Usage)
  | other
deriving DecidableEq

/-- The top-level nd-JSON envelopes. -/
inductive Envelope where
  | result (session_id : Option String) (cost_usd : Option Rat)
      (duration_ms : Option Rat) (result_text : Option String)
      (usage : Option Usage) (total_cost : Option Rat)
  | assistant (message : Option AssistantMessage) (session_id : Option String)
  | stream_event (inner : Option InnerEvent)
  | system (session_id : Option String) (subtype : Option String)
  | compact_boundary
  | other
deriving DecidableEq

/-- The rejection raised on a stream `error` event
(`UnexpectedCodePathError('stream error while read of brain output')`). -/
inductive StreamError where
  | streamFault
deriving DecidableEq

/-! ## Decoder state -/

/-- The mutable closure state of `getOneBrainOutputFromStreamJson`, plus
the bookkeeping fields `settledCount` / `detachCount` / `resolution` that
record promise settlement and listener detachment. -/
structure DecoderState where
  textAccumulated : String := ""
  sessionId : Option String := none
  tokensInput : Nat := 0
  tokensOutput : Nat := 0
  tokensCacheGet : Nat := 0
  tokensCacheSet : Nat := 0
  costUsd : Option Rat := none
  durationMs : Option Rat := none
  resultText : Option String := none
  compactionDetected : Bool := false
  resolved : Bool := false
  buffer : String := ""
  settledCount : Nat := 0
  detachCount : Nat := 0
  resolution : Option (Except StreamError BrainOutput) := none

/-- The decoder's initial state. -/
def initState : DecoderState := {}

/-! ## Session reconciler (lines 311–356 of the source `finalize`) -/

/-- `input.seriesPrior?.episodes ?? []`. -/
def episodesPriorOf (sp : Option BrainSeries) : List BrainEpisode :=
  match sp with
  | some s => s.episodes
  | none => []

/-- `episodesPrior[episodesPrior.length - 1] ?? null`. -/
def episodeLatestOf (sp : Option BrainSeries) : Option BrainEpisode :=
  (episodesPriorOf sp).getLast?

/-- `isSameContextWindow`: continuation of the latest episode. -/
def isSameContextWindow (sp : Option BrainSeries) (sessionId : Option String)
    (compactionDetected : Bool) : Bool :=
  !compactionDetected &&
    (match episodeLatestOf sp, sessionId with
     | some ep, some sid => ep.exid == some sid
     | _, _ => false)

/-- `isCompactionSplit`: the session id matches the latest episode's base
id but compaction broke the context window. -/
def isCompactionSplit (sp : Option BrainSeries) (sessionId : Option String)
    (compactionDetected : Bool) : Bool :=
  !(isSameContextWindow sp sessionId compactionDetected) && compactionDetected &&
    (match sessionId, episodeLatestOf sp with
     | some sid, some ep =>
        match ep.exid with
        | some x => x == sid || jsStartsWith x (sid ++ "/")
        | none => false
     | _, _ => false)

/-- The episode/series construction of `finalize` (source lines 311–356):
derive the episode identifier, build the episode (append to the latest on
continuation, fresh otherwise) and the series episode list. -/
def reconcile (sha : String → String) (sp : Option BrainSeries)
    (exchange : BrainExchange) (sessionId : Option String)
    (compactionDetected : Bool) : BrainEpisode × BrainSeries :=
  let episodesPrior := episodesPriorOf sp
  let episodeLatest := episodesPrior.getLast?
  let same := isSameContextWindow sp sessionId compactionDetected
  let split := isCompactionSplit sp sessionId compactionDetected
  let episodeExid : Option String :=
    if split then some (jsStr sessionId ++ "/" ++ toString episodesPrior.length)
    else sessionId
  let episode : BrainEpisode :=
    if same then
      let exchangesNew :=
        (match episodeLatest with
         | some ep => ep.exchanges
         | none => []) ++ [exchange]
      { hash := sha (jsStr sessionId ++ ":" ++
          joinColon (exchangesNew.map (fun e => e.hash)))
        exid := episodeExid
        exchanges := exchangesNew }
    else
      { hash := sha ((match sessionId with
          | some sid => sid
          | none => "ephemeral") ++ ":" ++ exchange.hash)
        exid := episodeExid
        exchanges := [exchange] }
  let episodesForSeries :=
    if same then episodesPrior.dropLast ++ [episode]
    else episodesPrior ++ [episode]
  let series : BrainSeries :=
    { hash := sha (match sessionId with
        | some sid => sid
        | none => "ephemeral")
      exid := sessionId
      episodes := episodesForSeries }
  (episode, series)

/-! ## Accounting finalizer (`finalize`, source lines 246–367) -/

/-- The `BrainOutput` that `finalize` resolves with, as a pure function of
the accumulated decoder state. -/
def buildOutput (sha : String → String) (inp : DecoderInput)
    (s : DecoderState) : BrainOutput :=
  let outputText :=
    match s.resultText with
    | some t => t
    | none => s.textAccumulated
  let costInput := getOneNumericFromIsoPrice inp.rates.input * (s.tokensInput : Rat)
  let costOutput := getOneNumericFromIsoPrice inp.rates.output * (s.tokensOutput : Rat)
  let costCacheGet := getOneNumericFromIsoPrice inp.rates.cache.get * (s.tokensCacheGet : Rat)
  let costCacheSet := getOneNumericFromIsoPrice inp.rates.cache.set * (s.tokensCacheSet : Rat)
  let costTotalNum :=
    match s.costUsd with
    | some c => c
    | none => costInput + costOutput + costCacheGet + costCacheSet
  let costTimeMs :=
    match s.durationMs with
    | some d => d
    | none => 0
  let metrics : BrainOutputMetrics :=
    { size :=
        { tokens :=
            { input := s.tokensInput
              output := s.tokensOutput
              cache := { get := s.tokensCacheGet, set := s.tokensCacheSet } }
          chars :=
            { input := inp.prompt.length
              output := outputText.length
              cache := { get := 0, set := 0 } } }
      cost :=
        { time := { milliseconds := costTimeMs }
          cash :=
            { total := costTotalNum
              deets :=
                { input := costInput
                  output := costOutput
                  cache := { get := costCacheGet, set := costCacheSet } } } } }
  let exchange : BrainExchange :=
    { hash := sha (inp.prompt ++ ":" ++ outputText)
      input := inp.prompt
      output := outputText
      exid := none }
  let r := reconcile sha inp.seriesPrior exchange s.sessionId s.compactionDetected
  { output := outputText
    metrics := metrics
    episode := r.1
    series := r.2 }

/-- `finalize`: guarded by `resolved`; detaches listeners, settles the
promise with `buildOutput` of the state at settlement time. -/
def finalizeStep (sha : String → String) (inp : DecoderInput)
    (s : DecoderState) : DecoderState :=
  if s.resolved then s
  else
    { s with
        resolved := true
        detachCount := s.detachCount + 1
        settledCount := s.settledCount + 1
        resolution := some (Except.ok (buildOutput sha inp s)) }

/-! ## Envelope handling (`processLine` / `processStreamEvent`) -/

/-- Usage extraction: each truthy field overwrites its counter. -/
def applyUsage (s : DecoderState) (u : Option Usage) : DecoderState :=
  match u with
  | none => s
  | some u =>
      { s with
          tokensInput := setIfTruthy s.tokensInput u.input_tokens
          tokensOutput := setIfTruthy s.tokensOutput u.output_tokens
          tokensCacheSet := setIfTruthy s.tokensCacheSet u.cache_creation_input_tokens
          tokensCacheGet := setIfTruthy s.tokensCacheGet u.cache_read_input_tokens }

/-- The field updates of the `result` branch that precede usage handling
(`x = (event.x as T) ?? x` for session id, cost, duration, result text). -/
def updResult (s : DecoderState) (sid : Option String) (cost : Option Rat)
    (dur : Option Rat) (res : Option String) : DecoderState :=
  { s with
      sessionId := jsCoalesce sid s.sessionId
      costUsd := jsCoalesce cost s.costUsd
      durationMs := jsCoalesce dur s.durationMs
      resultText := jsCoalesce res s.resultText }

/-- The `assistant` content loop: append every truthy `text` block. -/
def appendBlocks (acc : String) (bs : List ContentBlock) : String :=
  bs.foldl
    (fun a b =>
      if b.btype == "text" then
        match b.text with
        | some t => if t == "" then a else a ++ t
        | none => a
      else a)
    acc

/-- The `assistant` branch's content handling (`if (message?.content)`
loop). -/
def assistantTextUpd (s : DecoderState) (content : Option (List ContentBlock)) :
    DecoderState :=
  match content with
  | some blocks => { s with textAccumulated := appendBlocks s.textAccumulated blocks }
  | none => s

/-- The `result` branch's state updates before `finalize` fires: the four
coalescing field captures, the usage extraction, and the `total_cost`
fallback (`if (totalCost != null && costUsd == null) costUsd = totalCost`). -/
def resultPreFinal (s : DecoderState) (sid : Option String) (cost : Option Rat)
    (dur : Option Rat) (res : Option String) (usage : Option Usage)
    (totalCost : Option Rat) : DecoderState :=
  match totalCost, (applyUsage (updResult s sid cost dur res) usage).costUsd with
  | some t, none =>
      { applyUsage (updResult s sid cost dur res) usage with costUsd := some t }
  | _, _ => applyUsage (updResult s sid cost dur res) usage

/-- `processStreamEvent`: the inner anthropic API events. -/
def handleInner (s : DecoderState) : InnerEvent → DecoderState
  | .message_start ui =>
      { s with tokensInput := setIfTruthy s.tokensInput ui }
  | .content_block_delta d =>
      match d with
      | some dp =>
          if dp.dtype == some "text_delta" then
            match dp.text with
            | some t =>
                if t == "" then s
                else { s with textAccumulated := s.textAccumulated ++ t }
            | none => s
          else s
      | none => s
  | .message_delta u => applyUsage s u
  | .other => s

/-- `processLine`'s per-envelope dispatch (after JSON parse). -/
def handleEnvelope (sha : String → String) (inp : DecoderInput)
    (s : DecoderState) : Envelope → DecoderState
  | .result sid cost dur res usage totalCost =>
      finalizeStep sha inp (resultPreFinal s sid cost dur res usage totalCost)
  | .assistant msg sid =>
      let s1 :=
        match msg with
        | some m => applyUsage (assistantTextUpd s m.content) m.usage
        | none => s
      { s1 with sessionId := jsCoalesce sid s1.sessionId }
  | .stream_event inner =>
      match inner with
      | some ie => handleInner s ie
      | none => s
  | .system sid subtype =>
      if subtype == some "compact_boundary" then
        { s with sessionId := jsCoalesce sid s.sessionId, compactionDetected := true }
      else { s with sessionId := jsCoalesce sid s.sessionId }
  | .compact_boundary => { s with compactionDetected := true }
  | .other => s

/-- `processLine`: skip blank lines, skip unparseable lines, dispatch. -/
def processLine (sha : String → String) (inp : DecoderInput)
    (parse : String → Option Envelope) (s : DecoderState) (line : String) :
    DecoderState :=
  if jsTrim line == "" then s
  else
    match parse (jsTrim line) with
    | none => s
    | some e => handleEnvelope sha inp s e

/-! ## Stream handlers and event loop -/

/-- The body of `onDataHandler`'s per-line loop: process the line unless a
prior line already resolved (the loop's early `return`). -/
def lineStep (sha : String → String) (inp : DecoderInput)
    (parse : String → Option Envelope) (st : DecoderState) (l : String) :
    DecoderState :=
  if st.resolved then st else processLine sha inp parse st l

/-- `onDataHandler`: guard on `resolved`, frame lines, keep the trailing
fragment in the buffer, process complete lines with early exit once
resolved. -/
def onData (sha : String → String) (inp : DecoderInput)
    (parse : String → Option Envelope) (s : DecoderState) (chunk : String) :
    DecoderState :=
  if s.resolved then s
  else
    ((splitLines (s.buffer ++ chunk)).dropLast).foldl (lineStep sha inp parse)
      { s with buffer := (splitLines (s.buffer ++ chunk)).getLastD "" }

/-- The first half of `onEndHandler`: process any leftover buffer. -/
def endPre (sha : String → String) (inp : DecoderInput)
    (parse : String → Option Envelope) (s : DecoderState) : DecoderState :=
  if (jsTrim s.buffer == "") = false then processLine sha inp parse s s.buffer
  else s

/-- `onEndHandler`: process any leftover buffer, then finalize if not yet
resolved. -/
def onEnd (sha : String → String) (inp : DecoderInput)
    (parse : String → Option Envelope) (s : DecoderState) : DecoderState :=
  if (endPre sha inp parse s).resolved then endPre sha inp parse s
  else finalizeStep sha inp (endPre sha inp parse s)

/-- `onErrorHandler`: guard on `resolved`, detach, reject. -/
def onError (s : DecoderState) : DecoderState :=
  if s.resolved then s
  else
    { s with
        resolved := true
        detachCount := s.detachCount + 1
        settledCount := s.settledCount + 1
        resolution := some (Except.error StreamError.streamFault) }

/-- The events the stdout stream can deliver. -/
inductive StreamAction where
  | data (chunk : String)
  | endOfStream
  | errorEvent
deriving DecidableEq

/-- One delivered stream event. -/
def decoderStep (sha : String → String) (inp : DecoderInput)
    (parse : String → Option Envelope) (s : DecoderState) :
    StreamAction → DecoderState
  | .data c => onData sha inp parse s c
  | .endOfStream => onEnd sha inp parse s
  | .errorEvent => onError s

/-- Run the decoder over a sequence of stream events. -/
def decoderRun (sha : String → String) (inp : DecoderInput)
    (parse : String → Option Envelope) (s : DecoderState)
    (acts : List StreamAction) : DecoderState :=
  acts.foldl (decoderStep sha inp parse) s

/-- Does this envelope have `type === 'result'`? -/
def isResultEnvelope : Envelope → Bool
  | .result _ _ _ _ _ _ => true
  | _ => false

/-- Is this line non-blank and parsed as a `result` envelope? -/
def resultTrigger (parse : String → Option Envelope) (l : String) : Bool :=
  !(jsTrim l == "") &&
    (match parse (jsTrim l) with
     | some e => isResultEnvelope e
     | none => false)

/-- Does the framed portion of `buffer ++ chunk` contain a complete line
that parses as a `result` envelope? -/
def hasResultLine (parse : String → Option Envelope) (combined : String) : Bool :=
  ((splitLines combined).dropLast).any (resultTrigger parse)

/-! ## Process supervisor (`genBrainCli.ts`)

Process references are modelled as `Nat` pids drawn from a fresh counter,
so JS reference equality (`childProcess !== proc`) becomes pid equality
between distinct spawns. The externally observable side effects (SIGTERM,
spawn, stdin writes, exit-listener firing) are recorded in a trace.
`exitedPids` is model bookkeeping: the pids whose exit notification has
been delivered to the supervisor's wired exit handler. -/

/-- Boot mode (`'dispatch' | 'interact'`). -/
inductive CliMode where
  | dispatch
  | interact
deriving DecidableEq

/-- Task mode (`'ask' | 'act'`). -/
inductive TaskMode where
  | ask
  | act
deriving DecidableEq

/-- `instance` state: `{ pid, mode }`. -/
structure InstanceInfo where
  pid : Nat
  mode : CliMode
deriving DecidableEq

/-- Externally observable supervisor operations. `stdinWriteMessage`
stands for writing the nd-JSON line
`JSON.stringify({type:'user', message:{role:'user', content: prompt},
session_id}) + '\n'`; `stdinWrite` is the raw `terminal.write` relay. -/
inductive SupOp where
  | sigterm (pid : Nat)
  | spawnProc (pid : Nat) (mode : CliMode)
  | stdinWriteMessage (pid : Nat) (prompt : String) (session_id : Option String)
  | stdinWrite (pid : Nat) (payload : String)
  | fireExitListeners (pid : Nat)
deriving DecidableEq

/-- Errors thrown by the handle
(`UnexpectedCodePathError(msg)` carries the message). -/
inductive SupError where
  | unexpected (msg : String)
deriving DecidableEq

/-- The mutable closure state of `genBrainCli`. -/
structure SupState where
  inst : Option InstanceInfo
  childProcess : Option Nat
  ptyProcess : Option Nat
  lastTaskMode : Option TaskMode
  series : Option BrainSeries
  nextPid : Nat
  trace : List SupOp
  exitedPids : List Nat
deriving DecidableEq

/-- The handle's initial state (after `genBrainCli` returns, before any
boot). -/
def supInit : SupState :=
  { inst := none
    childProcess := none
    ptyProcess := none
    lastTaskMode := none
    series := none
    nextPid := 0
    trace := []
    exitedPids := [] }

/-- `killCurrentProcess`: send SIGTERM to whichever transports hold a
process reference, null the instance — but do NOT null
`childProcess`/`ptyProcess` (the exit handler does that). -/
def killCurrentProcess (s : SupState) : SupState :=
  let s1 :=
    match s.childProcess with
    | some p => { s with trace := s.trace ++ [SupOp.sigterm p] }
    | none => s
  let s2 :=
    match s1.ptyProcess with
    | some p => { s1 with trace := s1.trace ++ [SupOp.sigterm p] }
    | none => s1
  { s2 with inst := none }

/-- `executor.boot`: kill the extant process if alive, then spawn the new
transport immediately and record the new instance. -/
def bootStep (s : SupState) (mode : CliMode) : SupState :=
  let s1 := killCurrentProcess s
  match mode with
  | .dispatch =>
      let taskMode :=
        match s1.lastTaskMode with
        | some t => t
        | none => TaskMode.ask
      let pid := s1.nextPid
      { s1 with
          lastTaskMode := some taskMode
          childProcess := some pid
          inst := some { pid := pid, mode := CliMode.dispatch }
          nextPid := pid + 1
          trace := s1.trace ++ [SupOp.spawnProc pid CliMode.dispatch] }
  | .interact =>
      let pid := s1.nextPid
      { s1 with
          ptyProcess := some pid
          inst := some { pid := pid, mode := CliMode.interact }
          nextPid := pid + 1
          trace := s1.trace ++ [SupOp.spawnProc pid CliMode.interact] }

/-- The exit handler wired by `wireChildProcessHooks` for process `proc`:
honored only when `childProcess` still holds `proc`. -/
def exitChildStep (s : SupState) (proc : Nat) : SupState :=
  let s1 := { s with exitedPids := s.exitedPids ++ [proc] }
  if s1.childProcess = some proc then
    { s1 with
        inst := none
        childProcess := none
        trace := s1.trace ++ [SupOp.fireExitListeners proc] }
  else s1

/-- The exit handler wired by `wirePtyProcessHooks` for process `proc`:
honored only when `ptyProcess` still holds `proc`. -/
def exitPtyStep (s : SupState) (proc : Nat) : SupState :=
  let s1 := { s with exitedPids := s.exitedPids ++ [proc] }
  if s1.ptyProcess = some proc then
    { s1 with
        inst := none
        ptyProcess := none
        trace := s1.trace ++ [SupOp.fireExitListeners proc] }
  else s1

/-- `ask`: guards, respawn on task-mode switch, write one nd-JSON message,
await the decode (`decodeResult` stands for the awaited
`getOneBrainOutputFromStreamJson` value), update the durable series.
A thrown error propagates before any write or series mutation. -/
def askStep (s : SupState) (prompt : String) (decodeResult : BrainOutput) :
    Except SupError (SupState × BrainOutput) :=
  match s.inst with
  | none =>
      Except.error (SupError.unexpected
        "cannot ask: no live process. call executor.boot first")
  | some info =>
      if info.mode ≠ CliMode.dispatch then
        Except.error (SupError.unexpected
          "cannot ask: handle is in interact mode. boot dispatch first")
      else
        let s1 :=
          if s.lastTaskMode ≠ some TaskMode.ask then
            bootStep { s with lastTaskMode := some TaskMode.ask } CliMode.dispatch
          else s
        match s1.childProcess with
        | none =>
            Except.error (SupError.unexpected "dispatch process has no stdin")
        | some p =>
            let s2 := { s1 with trace := s1.trace ++
              [SupOp.stdinWriteMessage p prompt
                (s1.series.bind (fun sr => sr.exid))] }
            let s3 := { s2 with series := some decodeResult.series }
            Except.ok (s3, decodeResult)

/-- `act`: identical to `ask` with the task modes swapped. -/
def actStep (s : SupState) (prompt : String) (decodeResult : BrainOutput) :
    Except SupError (SupState × BrainOutput) :=
  match s.inst with
  | none =>
      Except.error (SupError.unexpected
        "cannot act: no live process. call executor.boot first")
  | some info =>
      if info.mode ≠ CliMode.dispatch then
        Except.error (SupError.unexpected
          "cannot act: handle is in interact mode. boot dispatch first")
      else
        let s1 :=
          if s.lastTaskMode ≠ some TaskMode.act then
            bootStep { s with lastTaskMode := some TaskMode.act } CliMode.dispatch
          else s
        match s1.childProcess with
        | none =>
            Except.error (SupError.unexpected "dispatch process has no stdin")
        | some p =>
            let s2 := { s1 with trace := s1.trace ++
              [SupOp.stdinWriteMessage p prompt
                (s1.series.bind (fun sr => sr.exid))] }
            let s3 := { s2 with series := some decodeResult.series }
            Except.ok (s3, decodeResult)

/-- `terminal.write`: relay raw data to the live transport's input. -/
def writeStep (s : SupState) (payload : String) : Except SupError SupState :=
  match s.inst with
  | none =>
      Except.error (SupError.unexpected "cannot write: no live process")
  | some info =>
      match info.mode, s.childProcess with
      | CliMode.dispatch, some p =>
          Except.ok { s with trace := s.trace ++ [SupOp.stdinWrite p payload] }
      | _, _ =>
          match info.mode, s.ptyProcess with
          | CliMode.interact, some p =>
              Except.ok { s with trace := s.trace ++ [SupOp.stdinWrite p payload] }
          | _, _ =>
              Except.error (SupError.unexpected
                "cannot write: process handle not available")

/-- The spec's rendering of claim C7: every boot issued while a process is
live observes that process's termination (its exit notification) before
the replacement is spawned — i.e. by the time `bootStep` has produced the
new instance, the prior pid's exit must have been delivered. -/
def bootAwaitsPriorTermination : Prop :=
  ∀ (s : SupState) (m : CliMode) (i : InstanceInfo),
    s.inst = some i → i.pid ∈ (bootStep s m).exitedPids

/-! ## Claims C2–C5: reconciler and finalizer -/

/-- Claim C2: for every prior series whose latest episode identifier equals
the observed session id or starts with it followed by `/`, when the
compaction flag is true and the session id is non-null (the continuation
case cannot apply under compaction), reconciliation appends one new episode
(count = prior + 1) whose identifier is `sessionId ++ "/" ++ priorCount`,
containing exactly the one new exchange. -/
theorem c2_compaction_split (sha : String → String) (prior : BrainSeries)
    (exch : BrainExchange) (sid : String) (ep : BrainEpisode) (x : String)
    (hlast : prior.episodes.getLast? = some ep)
    (hexid : ep.exid = some x)
    (hmatch : (x == sid || jsStartsWith x (sid ++ "/")) = true) :
    ((reconcile sha (some prior) exch (some sid) true).2.episodes.length
        = prior.episodes.length + 1)
    ∧ ((reconcile sha (some prior) exch (some sid) true).2.episodes
        = prior.episodes ++ [(reconcile sha (some prior) exch (some sid) true).1])
    ∧ ((reconcile sha (some prior) exch (some sid) true).1.exid
        = some (sid ++ "/" ++ toString prior.episodes.length))
    ∧ ((reconcile sha (some prior) exch (some sid) true).1.exchanges = [exch]) := by
  have hsame : isSameContextWindow (some prior) (some sid) true = false := by
    simp [isSameContextWindow]
  have hsplit : isCompactionSplit (some prior) (some sid) true = true := by
    simp [isCompactionSplit, hsame, episodeLatestOf, episodesPriorOf, hlast, hexid,
      hmatch]
  simp [reconcile, hsame, hsplit, episodesPriorOf, jsStr]

/-- Claim C3: for every prior series whose latest episode identifier equals
the observed non-null session id, with the compaction flag false,
reconciliation replaces the latest episode with one whose exchange list is
the prior exchanges plus the new exchange, identifier unchanged, hash
recomputed from the new exchange-hash list, and the series episode count is
unchanged. -/
theorem c3_continuation (sha : String → String) (prior : BrainSeries)
    (exch : BrainExchange) (sid : String) (ep : BrainEpisode)
    (hlast : prior.episodes.getLast? = some ep)
    (hexid : ep.exid = some sid) :
    ((reconcile sha (some prior) exch (some sid) false).2.episodes.length
        = prior.episodes.length)
    ∧ ((reconcile sha (some prior) exch (some sid) false).2.episodes
        = prior.episodes.dropLast
            ++ [(reconcile sha (some prior) exch (some sid) false).1])
    ∧ ((reconcile sha (some prior) exch (some sid) false).1.exid = some sid)
    ∧ ((reconcile sha (some prior) exch (some sid) false).1.exchanges
        = ep.exchanges ++ [exch])
    ∧ ((reconcile sha (some prior) exch (some sid) false).1.hash
        = sha (sid ++ ":" ++
            joinColon ((ep.exchanges ++ [exch]).map (fun e => e.hash)))) := by
  have hne : prior.episodes ≠ [] := by
    intro h
    rw [h] at hlast
    simp at hlast
  have hlen : 0 < prior.episodes.length := List.length_pos.mpr hne
  have hsame : isSameContextWindow (some prior) (some sid) false = true := by
    simp [isSameContextWindow, episodeLatestOf, episodesPriorOf, hlast, hexid]
  have hsplit : isCompactionSplit (some prior) (some sid) false = false := by
    simp [isCompactionSplit, hsame]
  constructor
  · simp [reconcile, hsame, hsplit, episodesPriorOf]
    omega
  · simp [reconcile, hsame, hsplit, episodesPriorOf, hlast, jsStr]

/-- Claim C4: whenever neither the continuation nor the compaction-split
case applies, reconciliation appends a new episode whose identifier is the
observed session id (possibly null) with exactly one exchange, and every
prior episode is left unchanged (the result list literally extends the
prior list). -/
theorem c4_new_window (sha : String → String) (sp : Option BrainSeries)
    (exch : BrainExchange) (sid : Option String) (compaction : Bool)
    (hsame : isSameContextWindow sp sid compaction = false)
    (hsplit : isCompactionSplit sp sid compaction = false) :
    ((reconcile sha sp exch sid compaction).2.episodes
        = episodesPriorOf sp ++ [(reconcile sha sp exch sid compaction).1])
    ∧ ((reconcile sha sp exch sid compaction).1.exid = sid)
    ∧ ((reconcile sha sp exch sid compaction).1.exchanges = [exch])
    ∧ ((reconcile sha sp exch sid compaction).2.episodes.take
          (episodesPriorOf sp).length = episodesPriorOf sp)
    ∧ ((reconcile sha sp exch sid compaction).2.episodes.length
        = (episodesPriorOf sp).length + 1) := by
  simp [reconcile, hsame, hsplit, List.take_left]

/-- Claim C5: in the finalized output, each per-category cash cost is the
numeric rate parsed from the spec's currency-prefixed decimal price string
times the observed token count for that category; the total equals the
vendor-reported cost exactly when one was observed, and otherwise the sum
of the four category costs; and `finalize` settles the promise with exactly
this `buildOutput` value. -/
theorem c5_cost_accounting (sha : String → String) (inp : DecoderInput)
    (s : DecoderState) :
    ((buildOutput sha inp s).metrics.cost.cash.deets.input
        = getOneNumericFromIsoPrice inp.rates.input * (s.tokensInput : Rat))
    ∧ ((buildOutput sha inp s).metrics.cost.cash.deets.output
        = getOneNumericFromIsoPrice inp.rates.output * (s.tokensOutput : Rat))
    ∧ ((buildOutput sha inp s).metrics.cost.cash.deets.cache.get
        = getOneNumericFromIsoPrice inp.rates.cache.get * (s.tokensCacheGet : Rat))
    ∧ ((buildOutput sha inp s).metrics.cost.cash.deets.cache.set
        = getOneNumericFromIsoPrice inp.rates.cache.set * (s.tokensCacheSet : Rat))
    ∧ (∀ c, s.costUsd = some c →
        (buildOutput sha inp s).metrics.cost.cash.total = c)
    ∧ (s.costUsd = none →
        (buildOutput sha inp s).metrics.cost.cash.total
          = getOneNumericFromIsoPrice inp.rates.input * (s.tokensInput : Rat)
            + getOneNumericFromIsoPrice inp.rates.output * (s.tokensOutput : Rat)
            + getOneNumericFromIsoPrice inp.rates.cache.get * (s.tokensCacheGet : Rat)
            + getOneNumericFromIsoPrice inp.rates.cache.set * (s.tokensCacheSet : Rat))
    ∧ (s.resolved = false →
        (finalizeStep sha inp s).resolution
          = some (Except.ok (buildOutput sha inp s))) := by
  refine ⟨rfl, rfl, rfl, rfl, ?_, ?_, ?_⟩
  · intro c hc
    simp [buildOutput, hc]
  · intro hc
    simp [buildOutput, hc]
  · intro h
    simp [finalizeStep, h]

/-! ## Decoder settlement invariants (support for C1, C6, C10) -/

/-- The promise-settlement core of a decoder state: resolved flag, settle
count, detach count, resolution value. -/
def coreOf (s : DecoderState) :
    Bool × Nat × Nat × Option (Except StreamError BrainOutput) :=
  (s.resolved, s.settledCount, s.detachCount, s.resolution)

theorem resolved_of_core {s t : DecoderState} (h : coreOf t = coreOf s) :
    t.resolved = s.resolved := congrArg Prod.fst h

theorem settled_of_core {s t : DecoderState} (h : coreOf t = coreOf s) :
    t.settledCount = s.settledCount := congrArg (fun p => p.2.1) h

theorem detach_of_core {s t : DecoderState} (h : coreOf t = coreOf s) :
    t.detachCount = s.detachCount := congrArg (fun p => p.2.2.1) h

theorem resolution_of_core {s t : DecoderState} (h : coreOf t = coreOf s) :
    t.resolution = s.resolution := congrArg (fun p => p.2.2.2) h

/-- Settlement bookkeeping is consistent: the settle and detach counters
equal 1 when resolved and 0 otherwise. -/
def GoodCounts (s : DecoderState) : Prop :=
  s.settledCount = (if s.resolved then 1 else 0) ∧
  s.detachCount = (if s.resolved then 1 else 0)

theorem good_of_core {s t : DecoderState} (h : coreOf t = coreOf s)
    (hg : GoodCounts s) : GoodCounts t := by
  unfold GoodCounts at hg ⊢
  rw [resolved_of_core h, settled_of_core h, detach_of_core h]
  exact hg

theorem coreOf_applyUsage (s : DecoderState) (u : Option Usage) :
    coreOf (applyUsage s u) = coreOf s := by
  cases u <;> rfl

theorem coreOf_updResult (s : DecoderState) (sid : Option String)
    (cost dur : Option Rat) (res : Option String) :
    coreOf (updResult s sid cost dur res) = coreOf s := rfl

theorem coreOf_assistantTextUpd (s : DecoderState)
    (c : Option (List ContentBlock)) :
    coreOf (assistantTextUpd s c) = coreOf s := by
  cases c <;> rfl

theorem coreOf_handleInner (s : DecoderState) (ie : InnerEvent) :
    coreOf (handleInner s ie) = coreOf s := by
  cases ie with
  | message_start ui => rfl
  | content_block_delta d =>
      cases d with
      | none => rfl
      | some dp =>
          simp only [handleInner]
          repeat' split
          all_goals rfl
  | message_delta u => exact coreOf_applyUsage s u
  | other => rfl

theorem coreOf_resultPreFinal (s : DecoderState) (sid : Option String)
    (cost dur : Option Rat) (res : Option String) (usage : Option Usage)
    (totalCost : Option Rat) :
    coreOf (resultPreFinal s sid cost dur res usage totalCost) = coreOf s := by
  have h2 : coreOf (applyUsage (updResult s sid cost dur res) usage) = coreOf s := by
    rw [coreOf_applyUsage, coreOf_updResult]
  unfold resultPreFinal
  split
  all_goals exact h2

theorem finalizeStep_resolved_eq (sha : String → String) (inp : DecoderInput)
    (s : DecoderState) (h : s.resolved = true) : finalizeStep sha inp s = s := by
  simp [finalizeStep, h]

theorem finalizeStep_unresolved_eq (sha : String → String) (inp : DecoderInput)
    (s : DecoderState) (h : s.resolved = false) :
    finalizeStep sha inp s =
      { s with
          resolved := true
          detachCount := s.detachCount + 1
          settledCount := s.settledCount + 1
          resolution := some (Except.ok (buildOutput sha inp s)) } := by
  simp [finalizeStep, h]

theorem finalizeStep_good (sha : String → String) (inp : DecoderInput)
    (s : DecoderState) (h : GoodCounts s) : GoodCounts (finalizeStep sha inp s) := by
  cases hr : s.resolved with
  | true =>
      rw [finalizeStep_resolved_eq sha inp s hr]
      exact h
  | false =>
      obtain ⟨h1, h2⟩ := h
      rw [hr] at h1 h2
      simp at h1 h2
      rw [finalizeStep_unresolved_eq sha inp s hr]
      constructor <;> simp_all

theorem finalizeStep_sessionId (sha : String → String) (inp : DecoderInput)
    (s : DecoderState) : (finalizeStep sha inp s).sessionId = s.sessionId := by
  unfold finalizeStep
  split <;> rfl

theorem finalizeStep_resultText (sha : String → String) (inp : DecoderInput)
    (s : DecoderState) : (finalizeStep sha inp s).resultText = s.resultText := by
  unfold finalizeStep
  split <;> rfl

theorem finalizeStep_text (sha : String → String) (inp : DecoderInput)
    (s : DecoderState) :
    (finalizeStep sha inp s).textAccumulated = s.textAccumulated := by
  unfold finalizeStep
  split <;> rfl

theorem coreOf_handleEnvelope_nonresult (sha : String → String)
    (inp : DecoderInput) (s : DecoderState) (e : Envelope)
    (he : isResultEnvelope e = false) :
    coreOf (handleEnvelope sha inp s e) = coreOf s := by
  cases e with
  | result sid cost dur res usage totalCost => simp [isResultEnvelope] at he
  | assistant msg sid =>
      cases msg with
      | none => rfl
      | some m =>
          calc coreOf (handleEnvelope sha inp s (Envelope.assistant (some m) sid))
              = coreOf (applyUsage (assistantTextUpd s m.content) m.usage) := rfl
            _ = coreOf (assistantTextUpd s m.content) := coreOf_applyUsage _ _
            _ = coreOf s := coreOf_assistantTextUpd _ _
  | stream_event inner =>
      cases inner with
      | none => rfl
      | some ie => exact coreOf_handleInner s ie
  | system sid subtype =>
      simp only [handleEnvelope]
      split
      all_goals rfl
  | compact_boundary => rfl
  | other => rfl

theorem coreOf_handleEnvelope_resolved (sha : String → String)
    (inp : DecoderInput) (s : DecoderState) (e : Envelope)
    (hr : s.resolved = true) :
    coreOf (handleEnvelope sha inp s e) = coreOf s := by
  cases he : isResultEnvelope e with
  | false => exact coreOf_handleEnvelope_nonresult sha inp s e he
  | true =>
      cases e with
      | result sid cost dur res usage totalCost =>
          have hc := coreOf_resultPreFinal s sid cost dur res usage totalCost
          have hres : (resultPreFinal s sid cost dur res usage totalCost).resolved = true := by
            rw [resolved_of_core hc]
            exact hr
          calc coreOf (handleEnvelope sha inp s
                (Envelope.result sid cost dur res usage totalCost))
              = coreOf (finalizeStep sha inp
                  (resultPreFinal s sid cost dur res usage totalCost)) := rfl
            _ = coreOf (resultPreFinal s sid cost dur res usage totalCost) := by
                rw [finalizeStep_resolved_eq _ _ _ hres]
            _ = coreOf s := hc
      | assistant msg sid => simp [isResultEnvelope] at he
      | stream_event inner => simp [isResultEnvelope] at he
      | system sid subtype => simp [isResultEnvelope] at he
      | compact_boundary => simp [isResultEnvelope] at he
      | other => simp [isResultEnvelope] at he

theorem good_handleEnvelope (sha : String → String) (inp : DecoderInput)
    (s : DecoderState) (e : Envelope) (hg : GoodCounts s) :
    GoodCounts (handleEnvelope sha inp s e) := by
  cases he : isResultEnvelope e with
  | false => exact good_of_core (coreOf_handleEnvelope_nonresult sha inp s e he) hg
  | true =>
      cases e with
      | result sid cost dur res usage totalCost =>
          exact finalizeStep_good sha inp _
            (good_of_core (coreOf_resultPreFinal s sid cost dur res usage totalCost) hg)
      | assistant msg sid => simp [isResultEnvelope] at he
      | stream_event inner => simp [isResultEnvelope] at he
      | system sid subtype => simp [isResultEnvelope] at he
      | compact_boundary => simp [isResultEnvelope] at he
      | other => simp [isResultEnvelope] at he

theorem handleEnvelope_result_resolves (sha : String → String)
    (inp : DecoderInput) (s : DecoderState) (sid : Option String)
    (cost dur : Option Rat) (res : Option String) (usage : Option Usage)
    (totalCost : Option Rat) (hr : s.resolved = false) :
    (handleEnvelope sha inp s
      (Envelope.result sid cost dur res usage totalCost)).resolved = true := by
  have hc := coreOf_resultPreFinal s sid cost dur res usage totalCost
  have hpre : (resultPreFinal s sid cost dur res usage totalCost).resolved = false := by
    rw [resolved_of_core hc]
    exact hr
  show (finalizeStep sha inp (resultPreFinal s sid cost dur res usage totalCost)).resolved = true
  rw [finalizeStep_unresolved_eq _ _ _ hpre]

theorem handleEnvelope_resolves_exists (sha : String → String)
    (inp : DecoderInput) (s : DecoderState) (e : Envelope)
    (hr : s.resolved = false)
    (hres : (handleEnvelope sha inp s e).resolved = true) :
    ∃ t, handleEnvelope sha inp s e = finalizeStep sha inp t ∧ coreOf t = coreOf s := by
  cases e with
  | result sid cost dur res usage totalCost =>
      exact ⟨resultPreFinal s sid cost dur res usage totalCost, rfl,
        coreOf_resultPreFinal s sid cost dur res usage totalCost⟩
  | assistant msg sid =>
      rw [resolved_of_core (coreOf_handleEnvelope_nonresult sha inp s
        (Envelope.assistant msg sid) rfl), hr] at hres
      exact absurd hres (by simp)
  | stream_event inner =>
      rw [resolved_of_core (coreOf_handleEnvelope_nonresult sha inp s
        (Envelope.stream_event inner) rfl), hr] at hres
      exact absurd hres (by simp)
  | system sid subtype =>
      rw [resolved_of_core (coreOf_handleEnvelope_nonresult sha inp s
        (Envelope.system sid subtype) rfl), hr] at hres
      exact absurd hres (by simp)
  | compact_boundary =>
      rw [resolved_of_core (coreOf_handleEnvelope_nonresult sha inp s
        Envelope.compact_boundary rfl), hr] at hres
      exact absurd hres (by simp)
  | other =>
      rw [resolved_of_core (coreOf_handleEnvelope_nonresult sha inp s
        Envelope.other rfl), hr] at hres
      exact absurd hres (by simp)

theorem processLine_skip_or_handle (sha : String → String) (inp : DecoderInput)
    (parse : String → Option Envelope) (s : DecoderState) (l : String) :
    processLine sha inp parse s l = s ∨
      ∃ e, parse (jsTrim l) = some e ∧
        processLine sha inp parse s l = handleEnvelope sha inp s e := by
  unfold processLine
  split
  · exact Or.inl rfl
  · split
    · exact Or.inl rfl
    · rename_i e hp
      exact Or.inr ⟨e, hp, rfl⟩

theorem coreOf_processLine_resolved (sha : String → String) (inp : DecoderInput)
    (parse : String → Option Envelope) (s : DecoderState) (l : String)
    (hr : s.resolved = true) :
    coreOf (processLine sha inp parse s l) = coreOf s := by
  rcases processLine_skip_or_handle sha inp parse s l with h | ⟨e, _, h⟩ <;> rw [h]
  exact coreOf_handleEnvelope_resolved sha inp s e hr

theorem good_processLine (sha : String → String) (inp : DecoderInput)
    (parse : String → Option Envelope) (s : DecoderState) (l : String)
    (hg : GoodCounts s) : GoodCounts (processLine sha inp parse s l) := by
  rcases processLine_skip_or_handle sha inp parse s l with h | ⟨e, _, h⟩ <;> rw [h]
  · exact hg
  · exact good_handleEnvelope sha inp s e hg

theorem processLine_trigger (sha : String → String) (inp : DecoderInput)
    (parse : String → Option Envelope) (s : DecoderState) (l : String)
    (hr : s.resolved = false) (ht : resultTrigger parse l = true) :
    (processLine sha inp parse s l).resolved = true := by
  unfold resultTrigger at ht
  unfold processLine
  split
  · rename_i hblank
    rw [hblank] at ht
    simp at ht
  · split
    · rename_i hp
      rw [hp] at ht
      simp at ht
    · rename_i e hp
      rw [hp] at ht
      have he : isResultEnvelope e = true := (Bool.and_eq_true _ _ |>.mp ht).2
      cases e with
      | result sid cost dur res usage totalCost =>
          exact handleEnvelope_result_resolves sha inp s sid cost dur res usage totalCost hr
      | assistant msg sid => simp [isResultEnvelope] at he
      | stream_event inner => simp [isResultEnvelope] at he
      | system sid subtype => simp [isResultEnvelope] at he
      | compact_boundary => simp [isResultEnvelope] at he
      | other => simp [isResultEnvelope] at he

theorem coreOf_processLine_unresolved (sha : String → String)
    (inp : DecoderInput) (parse : String → Option Envelope) (s : DecoderState)
    (l : String) (hr : s.resolved = false)
    (hres : (processLine sha inp parse s l).resolved = false) :
    coreOf (processLine sha inp parse s l) = coreOf s := by
  rcases processLine_skip_or_handle sha inp parse s l with h | ⟨e, _, h⟩ <;> rw [h]
  rw [h] at hres
  cases he : isResultEnvelope e with
  | false => exact coreOf_handleEnvelope_nonresult sha inp s e he
  | true =>
      cases e with
      | result sid cost dur res usage totalCost =>
          rw [handleEnvelope_result_resolves sha inp s sid cost dur res usage totalCost hr] at hres
          exact absurd hres (by simp)
      | assistant msg sid => simp [isResultEnvelope] at he
      | stream_event inner => simp [isResultEnvelope] at he
      | system sid subtype => simp [isResultEnvelope] at he
      | compact_boundary => simp [isResultEnvelope] at he
      | other => simp [isResultEnvelope] at he

theorem foldl_lineStep_resolved (sha : String → String) (inp : DecoderInput)
    (parse : String → Option Envelope) (L : List String) (st : DecoderState)
    (hr : st.resolved = true) :
    L.foldl (lineStep sha inp parse) st = st := by
  induction L with
  | nil => rfl
  | cons l tl ih =>
      rw [List.foldl_cons]
      have h : lineStep sha inp parse st l = st := by
        unfold lineStep
        rw [if_pos hr]
      rw [h]
      exact ih

theorem good_foldl_lineStep (sha : String → String) (inp : DecoderInput)
    (parse : String → Option Envelope) (L : List String) (st : DecoderState)
    (hg : GoodCounts st) : GoodCounts (L.foldl (lineStep sha inp parse) st) := by
  induction L generalizing st with
  | nil => exact hg
  | cons l tl ih =>
      rw [List.foldl_cons]
      apply ih
      unfold lineStep
      split
      · exact hg
      · exact good_processLine sha inp parse st l hg

theorem foldl_lineStep_trigger (sha : String → String) (inp : DecoderInput)
    (parse : String → Option Envelope) (L : List String) (st : DecoderState)
    (ht : L.any (resultTrigger parse) = true) :
    (L.foldl (lineStep sha inp parse) st).resolved = true := by
  induction L generalizing st with
  | nil => simp at ht
  | cons l tl ih =>
      rw [List.foldl_cons]
      cases hr : st.resolved with
      | true =>
          have h : lineStep sha inp parse st l = st := by
            unfold lineStep
            rw [if_pos hr]
          rw [h, foldl_lineStep_resolved sha inp parse tl st hr]
          exact hr
      | false =>
          have h : lineStep sha inp parse st l = processLine sha inp parse st l := by
            unfold lineStep
            rw [if_neg (by simp [hr])]
          rw [h]
          have hor : resultTrigger parse l = true ∨ tl.any (resultTrigger parse) = true := by
            simpa [List.any_cons, Bool.or_eq_true] using ht
          rcases hor with h1 | h2
          · have hres := processLine_trigger sha inp parse st l hr h1
            rw [foldl_lineStep_resolved sha inp parse tl _ hres]
            exact hres
          · exact ih _ h2

theorem onData_resolved_eq (sha : String → String) (inp : DecoderInput)
    (parse : String → Option Envelope) (s : DecoderState) (c : String)
    (hr : s.resolved = true) : onData sha inp parse s c = s := by
  unfold onData
  rw [if_pos hr]

theorem onData_trigger (sha : String → String) (inp : DecoderInput)
    (parse : String → Option Envelope) (s : DecoderState) (c : String)
    (hr : s.resolved = false)
    (ht : hasResultLine parse (s.buffer ++ c) = true) :
    (onData sha inp parse s c).resolved = true := by
  unfold onData
  rw [if_neg (by simp [hr])]
  exact foldl_lineStep_trigger sha inp parse _ _ ht

theorem endPre_unres_core (sha : String → String) (inp : DecoderInput)
    (parse : String → Option Envelope) (s : DecoderState)
    (hr : s.resolved = false)
    (hA : (endPre sha inp parse s).resolved = false) :
    coreOf (endPre sha inp parse s) = coreOf s := by
  unfold endPre at hA ⊢
  by_cases hcond : (jsTrim s.buffer == "") = false
  · rw [if_pos hcond] at hA ⊢
    exact coreOf_processLine_unresolved sha inp parse s s.buffer hr hA
  · rw [if_neg hcond]

/-- On an unresolved state, `onEndHandler` always settles via `finalize`
applied to some state that shares the unresolved settlement core. -/
theorem onEnd_unresolved (sha : String → String) (inp : DecoderInput)
    (parse : String → Option Envelope) (s : DecoderState)
    (hr : s.resolved = false) :
    ∃ t, onEnd sha inp parse s = finalizeStep sha inp t ∧ coreOf t = coreOf s := by
  cases hA : (endPre sha inp parse s).resolved with
  | false =>
      refine ⟨endPre sha inp parse s, ?_, endPre_unres_core sha inp parse s hr hA⟩
      unfold onEnd
      rw [if_neg (by simp [hA])]
  | true =>
      have hpre : ∃ t, endPre sha inp parse s = finalizeStep sha inp t ∧
          coreOf t = coreOf s := by
        unfold endPre at hA ⊢
        by_cases hcond : (jsTrim s.buffer == "") = false
        · rw [if_pos hcond] at hA ⊢
          rcases processLine_skip_or_handle sha inp parse s s.buffer with h | ⟨e, _, h⟩
          · rw [h] at hA
            simp [hr] at hA
          · rw [h] at hA ⊢
            exact handleEnvelope_resolves_exists sha inp s e hr hA
        · rw [if_neg hcond] at hA
          simp [hr] at hA
      obtain ⟨t, ht1, ht2⟩ := hpre
      refine ⟨t, ?_, ht2⟩
      unfold onEnd
      rw [if_pos hA]
      exact ht1

theorem good_onError (s : DecoderState) (hg : GoodCounts s) :
    GoodCounts (onError s) := by
  cases hr : s.resolved with
  | true =>
      unfold onError
      rw [if_pos hr]
      exact hg
  | false =>
      obtain ⟨h1, h2⟩ := hg
      rw [hr] at h1 h2
      simp at h1 h2
      unfold onError
      rw [if_neg (by simp [hr])]
      constructor <;> simp_all

theorem good_decoderStep (sha : String → String) (inp : DecoderInput)
    (parse : String → Option Envelope) (s : DecoderState) (a : StreamAction)
    (hg : GoodCounts s) : GoodCounts (decoderStep sha inp parse s a) := by
  cases a with
  | data c =>
      show GoodCounts (onData sha inp parse s c)
      unfold onData
      split
      · exact hg
      · exact good_foldl_lineStep sha inp parse _ _ hg
  | endOfStream =>
      show GoodCounts (onEnd sha inp parse s)
      have hg1 : GoodCounts (endPre sha inp parse s) := by
        unfold endPre
        split
        · exact good_processLine sha inp parse s s.buffer hg
        · exact hg
      unfold onEnd
      split
      · exact hg1
      · exact finalizeStep_good sha inp _ hg1
  | errorEvent => exact good_onError s hg

theorem coreOf_decoderStep_resolved (sha : String → String) (inp : DecoderInput)
    (parse : String → Option Envelope) (s : DecoderState) (a : StreamAction)
    (hr : s.resolved = true) :
    coreOf (decoderStep sha inp parse s a) = coreOf s := by
  cases a with
  | data c =>
      show coreOf (onData sha inp parse s c) = coreOf s
      rw [onData_resolved_eq sha inp parse s c hr]
  | endOfStream =>
      show coreOf (onEnd sha inp parse s) = coreOf s
      have h1 : coreOf (endPre sha inp parse s) = coreOf s := by
        unfold endPre
        split
        · exact coreOf_processLine_resolved sha inp parse s s.buffer hr
        · rfl
      have h2 : (endPre sha inp parse s).resolved = true := by
        rw [resolved_of_core h1]
        exact hr
      unfold onEnd
      rw [if_pos h2]
      exact h1
  | errorEvent =>
      show coreOf (onError s) = coreOf s
      unfold onError
      rw [if_pos hr]

theorem decoderRun_append (sha : String → String) (inp : DecoderInput)
    (parse : String → Option Envelope) (s : DecoderState)
    (l1 l2 : List StreamAction) :
    decoderRun sha inp parse s (l1 ++ l2)
      = decoderRun sha inp parse (decoderRun sha inp parse s l1) l2 := by
  unfold decoderRun
  exact List.foldl_append _ _ _ _

theorem good_decoderRun (sha : String → String) (inp : DecoderInput)
    (parse : String → Option Envelope) (s : DecoderState)
    (acts : List StreamAction) (hg : GoodCounts s) :
    GoodCounts (decoderRun sha inp parse s acts) := by
  induction acts generalizing s with
  | nil => exact hg
  | cons a tl ih => exact ih _ (good_decoderStep sha inp parse s a hg)

theorem resolved_decoderRun_mono (sha : String → String) (inp : DecoderInput)
    (parse : String → Option Envelope) (s : DecoderState)
    (acts : List StreamAction) (hr : s.resolved = true) :
    (decoderRun sha inp parse s acts).resolved = true := by
  induction acts generalizing s with
  | nil => exact hr
  | cons a tl ih =>
      apply ih
      rw [resolved_of_core (coreOf_decoderStep_resolved sha inp parse s a hr)]
      exact hr

/-! ## Claim C1: single finalize on a `result` envelope -/

/-- Claim C1: for every input stream that delivers a `result` envelope (as
a complete framed line of some chunk, arriving while the decoder is still
unresolved), the decoder settles its promise and detaches its listeners
exactly once, regardless of any further lines, end-of-stream, or stray
events delivered afterward. -/
theorem c1_finalizes_exactly_once (sha : String → String) (inp : DecoderInput)
    (parse : String → Option Envelope) (pre post : List StreamAction)
    (c : String)
    (h1 : (decoderRun sha inp parse initState pre).resolved = false)
    (h2 : hasResultLine parse
      ((decoderRun sha inp parse initState pre).buffer ++ c) = true) :
    ((decoderRun sha inp parse initState
        (pre ++ StreamAction.data c :: post)).settledCount = 1)
    ∧ ((decoderRun sha inp parse initState
        (pre ++ StreamAction.data c :: post)).detachCount = 1) := by
  have hg0 : GoodCounts initState := ⟨rfl, rfl⟩
  have hgpre : GoodCounts (decoderRun sha inp parse initState pre) :=
    good_decoderRun sha inp parse initState pre hg0
  have hmid : (onData sha inp parse (decoderRun sha inp parse initState pre) c).resolved
      = true :=
    onData_trigger sha inp parse _ c h1 h2
  have hsplit : decoderRun sha inp parse initState (pre ++ StreamAction.data c :: post)
      = decoderRun sha inp parse
          (onData sha inp parse (decoderRun sha inp parse initState pre) c) post := by
    rw [decoderRun_append]
    rfl
  have hgmid : GoodCounts (onData sha inp parse (decoderRun sha inp parse initState pre) c) :=
    good_decoderStep sha inp parse _ (StreamAction.data c) hgpre
  have hres : (decoderRun sha inp parse
      (onData sha inp parse (decoderRun sha inp parse initState pre) c) post).resolved
      = true :=
    resolved_decoderRun_mono sha inp parse _ post hmid
  have hgfin := good_decoderRun sha inp parse _ post hgmid
  obtain ⟨hs, hd⟩ := hgfin
  rw [hres] at hs hd
  rw [hsplit]
  exact ⟨by simpa using hs, by simpa using hd⟩

/-! ## Claim C6: end-of-stream without a `result` envelope -/

theorem buildOutput_output (sha : String → String) (inp : DecoderInput)
    (s : DecoderState) :
    (buildOutput sha inp s).output
      = (match s.resultText with
         | some t => t
         | none => s.textAccumulated) := rfl

theorem buildOutput_series_exid (sha : String → String) (inp : DecoderInput)
    (s : DecoderState) : (buildOutput sha inp s).series.exid = s.sessionId := rfl

/-- Claim C6: a stream that ends without any `result` envelope still
finalizes exactly once, the output text equals the accumulated incremental
text (including the effect of any complete line left in the trailing
buffer, which is processed before finalize fires), and the series carries
whatever session id was last observed (possibly null). -/
theorem c6_end_without_result (sha : String → String) (inp : DecoderInput)
    (parse : String → Option Envelope) (chunks : List String)
    (h1 : (decoderRun sha inp parse initState
        (chunks.map StreamAction.data)).resolved = false)
    (h2 : (decoderRun sha inp parse initState
        (chunks.map StreamAction.data ++ [StreamAction.endOfStream])).resultText
      = none) :
    ((decoderRun sha inp parse initState
        (chunks.map StreamAction.data ++ [StreamAction.endOfStream])).settledCount = 1)
    ∧ ∃ out,
      (decoderRun sha inp parse initState
        (chunks.map StreamAction.data ++ [StreamAction.endOfStream])).resolution
          = some (Except.ok out)
      ∧ out.output = (decoderRun sha inp parse initState
          (chunks.map StreamAction.data ++ [StreamAction.endOfStream])).textAccumulated
      ∧ out.series.exid = (decoderRun sha inp parse initState
          (chunks.map StreamAction.data ++ [StreamAction.endOfStream])).sessionId := by
  have hsig : decoderRun sha inp parse initState
      (chunks.map StreamAction.data ++ [StreamAction.endOfStream])
      = onEnd sha inp parse (decoderRun sha inp parse initState
          (chunks.map StreamAction.data)) := by
    rw [decoderRun_append]
    rfl
  obtain ⟨t, hT, hC⟩ := onEnd_unresolved sha inp parse
    (decoderRun sha inp parse initState (chunks.map StreamAction.data)) h1
  have htres : t.resolved = false := by
    rw [resolved_of_core hC]
    exact h1
  have hg1 : GoodCounts (decoderRun sha inp parse initState (chunks.map StreamAction.data)) :=
    good_decoderRun sha inp parse initState _ ⟨rfl, rfl⟩
  have ht0 : t.settledCount = 0 := by
    rw [settled_of_core hC, hg1.1, h1]
    simp
  have hfin := finalizeStep_unresolved_eq sha inp t htres
  have hrt : t.resultText = none := by
    rw [hsig, hT, finalizeStep_resultText] at h2
    exact h2
  constructor
  · rw [hsig, hT, hfin]
    simp [ht0]
  · refine ⟨buildOutput sha inp t, ?_, ?_, ?_⟩
    · rw [hsig, hT, hfin]
    · rw [hsig, hT, finalizeStep_text, buildOutput_output, hrt]
    · rw [hsig, hT, finalizeStep_sessionId, buildOutput_series_exid]

/-! ## Claim C10: session id nullness monotonicity -/

/-- The `session_id` field as read by the decoder from each envelope kind
(absent for kinds that never touch the captured session id). -/
def envelopeSessionField : Envelope → Option String
  | .result sid _ _ _ _ _ => sid
  | .assistant _ sid => sid
  | .system sid _ => sid
  | _ => none

theorem applyUsage_sessionId (s : DecoderState) (u : Option Usage) :
    (applyUsage s u).sessionId = s.sessionId := by
  cases u <;> rfl

theorem assistantTextUpd_sessionId (s : DecoderState)
    (c : Option (List ContentBlock)) :
    (assistantTextUpd s c).sessionId = s.sessionId := by
  cases c <;> rfl

theorem handleInner_sessionId (s : DecoderState) (ie : InnerEvent) :
    (handleInner s ie).sessionId = s.sessionId := by
  cases ie with
  | message_start ui => rfl
  | content_block_delta d =>
      cases d with
      | none => rfl
      | some dp =>
          simp only [handleInner]
          repeat' split
          all_goals rfl
  | message_delta u => exact applyUsage_sessionId s u
  | other => rfl

theorem resultPreFinal_sessionId (s : DecoderState) (sid : Option String)
    (cost dur : Option Rat) (res : Option String) (usage : Option Usage)
    (totalCost : Option Rat) :
    (resultPreFinal s sid cost dur res usage totalCost).sessionId
      = jsCoalesce sid s.sessionId := by
  have h2 : (applyUsage (updResult s sid cost dur res) usage).sessionId
      = jsCoalesce sid s.sessionId := by
    rw [applyUsage_sessionId]
    rfl
  unfold resultPreFinal
  split
  all_goals exact h2

/-- The captured session id after any envelope is the envelope's
`session_id` field coalesced with the prior value — exactly the
`sessionId = (event.session_id as string) ?? sessionId` pattern. -/
theorem handleEnvelope_sessionId (sha : String → String) (inp : DecoderInput)
    (s : DecoderState) (e : Envelope) :
    (handleEnvelope sha inp s e).sessionId
      = jsCoalesce (envelopeSessionField e) s.sessionId := by
  cases e with
  | result sid cost dur res usage totalCost =>
      show (finalizeStep sha inp (resultPreFinal s sid cost dur res usage totalCost)).sessionId = _
      rw [finalizeStep_sessionId, resultPreFinal_sessionId]
      rfl
  | assistant msg sid =>
      cases msg with
      | none => rfl
      | some m =>
          show jsCoalesce sid (applyUsage (assistantTextUpd s m.content) m.usage).sessionId
              = jsCoalesce (envelopeSessionField (Envelope.assistant (some m) sid)) s.sessionId
          rw [applyUsage_sessionId, assistantTextUpd_sessionId]
          rfl
  | stream_event inner =>
      cases inner with
      | none => rfl
      | some ie =>
          show (handleInner s ie).sessionId = _
          rw [handleInner_sessionId]
          rfl
  | system sid subtype =>
      simp only [handleEnvelope]
      split
      all_goals rfl
  | compact_boundary => rfl
  | other => rfl

theorem sessionId_isSome_handleEnvelope (sha : String → String)
    (inp : DecoderInput) (s : DecoderState) (e : Envelope)
    (h : s.sessionId.isSome = true) :
    (handleEnvelope sha inp s e).sessionId.isSome = true := by
  rw [handleEnvelope_sessionId]
  cases envelopeSessionField e with
  | none => exact h
  | some x => rfl

theorem sessionId_isSome_processLine (sha : String → String)
    (inp : DecoderInput) (parse : String → Option Envelope) (s : DecoderState)
    (l : String) (h : s.sessionId.isSome = true) :
    (processLine sha inp parse s l).sessionId.isSome = true := by
  rcases processLine_skip_or_handle sha inp parse s l with hh | ⟨e, _, hh⟩ <;> rw [hh]
  · exact h
  · exact sessionId_isSome_handleEnvelope sha inp s e h

theorem sessionId_isSome_foldl (sha : String → String) (inp : DecoderInput)
    (parse : String → Option Envelope) (L : List String) (st : DecoderState)
    (h : st.sessionId.isSome = true) :
    ((L.foldl (lineStep sha inp parse) st)).sessionId.isSome = true := by
  induction L generalizing st with
  | nil => exact h
  | cons l tl ih =>
      rw [List.foldl_cons]
      apply ih
      unfold lineStep
      split
      · exact h
      · exact sessionId_isSome_processLine sha inp parse st l h

theorem sessionId_isSome_decoderStep (sha : String → String)
    (inp : DecoderInput) (parse : String → Option Envelope) (s : DecoderState)
    (a : StreamAction) (h : s.sessionId.isSome = true) :
    (decoderStep sha inp parse s a).sessionId.isSome = true := by
  cases a with
  | data c =>
      show (onData sha inp parse s c).sessionId.isSome = true
      unfold onData
      split
      · exact h
      · exact sessionId_isSome_foldl sha inp parse _ _ h
  | endOfStream =>
      show (onEnd sha inp parse s).sessionId.isSome = true
      have hpre : (endPre sha inp parse s).sessionId.isSome = true := by
        unfold endPre
        split
        · exact sessionId_isSome_processLine sha inp parse s s.buffer h
        · exact h
      unfold onEnd
      split
      · exact hpre
      · rw [finalizeStep_sessionId]
        exact hpre
  | errorEvent =>
      show (onError s).sessionId.isSome = true
      unfold onError
      split
      · exact h
      · exact h

/-- Claim C10: the captured session id is monotone with respect to
nullness. An envelope that lacks a `session_id` field leaves the captured
value unchanged, and along any run of stream events an already-observed
session id is never reset to null. -/
theorem c10_sessionid_monotone (sha : String → String) (inp : DecoderInput)
    (parse : String → Option Envelope) :
    (∀ (s : DecoderState) (e : Envelope),
        envelopeSessionField e = none →
        (handleEnvelope sha inp s e).sessionId = s.sessionId)
    ∧ (∀ (s : DecoderState) (acts : List StreamAction),
        s.sessionId.isSome = true →
        (decoderRun sha inp parse s acts).sessionId.isSome = true) := by
  constructor
  · intro s e hf
    rw [handleEnvelope_sessionId, hf]
    rfl
  · intro s acts h
    induction acts generalizing s with
    | nil => exact h
    | cons a tl ih => exact ih _ (sessionId_isSome_decoderStep sha inp parse s a h)

/-! ## Claims C7–C9: supervisor -/

/-- Claim C7, counterexample: the claim "boot suspends until the prior
process's termination is observed (its exit notification received) before
the replacement process is spawned" is false: a second boot issued while
pid 0 is live spawns the replacement although pid 0's exit notification
was never delivered. -/
theorem c7_counterexample : ¬ bootAwaitsPriorTermination := by
  intro h
  have hc := h (bootStep supInit CliMode.dispatch) CliMode.dispatch
    { pid := 0, mode := CliMode.dispatch } rfl
  exact absurd hc (by decide)

/-- Claim C7, amended: a boot issued while a process is live requests that
process's termination and spawns the replacement immediately — it does not
wait for (or record) the prior process's exit notification, and the new
instance is installed right away; protection against the stale exit event
is left to the exit handlers' reference check. -/
theorem c7_amended_boot_immediate (s : SupState) (p : Nat) (m : CliMode)
    (hchild : s.childProcess = some p) (hpty : s.ptyProcess = none) :
    ((bootStep s m).trace = s.trace ++ [SupOp.sigterm p, SupOp.spawnProc s.nextPid m])
    ∧ ((bootStep s m).exitedPids = s.exitedPids)
    ∧ ((bootStep s m).inst = some { pid := s.nextPid, mode := m }) := by
  cases m <;> simp [bootStep, killCurrentProcess, hchild, hpty]

/-- Claim C8, failing input: after `boot(interact)` then `boot(dispatch)`,
the superseded pty process (pid 0) delivers its exit notification. Because
`ptyProcess` was never cleared by the cross-transport reboot, the stale
notification passes the `ptyProcess !== proc` reference check: it is
honored — the exit listeners fire and the instance belonging to the new
dispatch process (pid 1, still live in `childProcess`) is nulled — where
the claim (and the code's own comments) say it must be discarded. -/
theorem c8_cross_transport_clobber :
    ((bootStep (bootStep supInit CliMode.interact) CliMode.dispatch).inst
        = some { pid := 1, mode := CliMode.dispatch })
    ∧ ((bootStep (bootStep supInit CliMode.interact) CliMode.dispatch).ptyProcess
        = some 0)
    ∧ ((exitPtyStep (bootStep (bootStep supInit CliMode.interact) CliMode.dispatch) 0).inst
        = none)
    ∧ ((exitPtyStep (bootStep (bootStep supInit CliMode.interact) CliMode.dispatch) 0).childProcess
        = some 1)
    ∧ ((exitPtyStep (bootStep (bootStep supInit CliMode.interact) CliMode.dispatch) 0).trace
        = [SupOp.spawnProc 0 CliMode.interact, SupOp.sigterm 0,
           SupOp.spawnProc 1 CliMode.dispatch, SupOp.fireExitListeners 0]) := by
  refine ⟨rfl, rfl, rfl, rfl, rfl⟩

/-- Claim C9: `ask`/`act`/`terminal.write` before any boot fail with the
"no live process" execution-state error, and `ask`/`act` while the
transport mode is `interact` fail with the "wrong mode" error. In every
failure case the step returns `Except.error` before any stdin write or
series mutation occurs (the guards precede both in the step functions), so
no message is written and the durable series is unchanged. -/
theorem c9_guard_errors (prompt payload : String) (o : BrainOutput)
    (s : SupState) (hs : s.inst = none)
    (t : SupState) (i : InstanceInfo) (ht : t.inst = some i)
    (hm : i.mode = CliMode.interact) :
    (askStep s prompt o = Except.error (SupError.unexpected
        "cannot ask: no live process. call executor.boot first"))
    ∧ (actStep s prompt o = Except.error (SupError.unexpected
        "cannot act: no live process. call executor.boot first"))
    ∧ (writeStep s payload = Except.error (SupError.unexpected
        "cannot write: no live process"))
    ∧ (askStep t prompt o = Except.error (SupError.unexpected
        "cannot ask: handle is in interact mode. boot dispatch first"))
    ∧ (actStep t prompt o = Except.error (SupError.unexpected
        "cannot act: handle is in interact mode. boot dispatch first")) := by
  refine ⟨?_, ?_, ?_, ?_, ?_⟩
  · simp [askStep, hs]
  · simp [actStep, hs]
  · simp [writeStep, hs]
  · simp [askStep, ht, hm]
  · simp [actStep, ht, hm]

/-! ## Concrete fixtures for witnesses -/

/-- A concrete stand-in for the external sha256 digest. -/
def sha0 : String → String := fun s => s

/-- Concrete IsoPrice rate strings. -/
def rates0 : CashRates :=
  { input := "$0.5", output := "$2", cache := { get := "$4", set := "$8" } }

/-- Concrete decoder input. -/
def inp0 : DecoderInput := { prompt := "p", rates := rates0, seriesPrior := none }

/-- A concrete stand-in for JSON parsing: the line `R` is a `result`
envelope, everything else is unrecognized. -/
def parse0 : String → Option Envelope := fun t =>
  if t = "R" then
    some (Envelope.result (some "sess") none none (some "out") none none)
  else none

/-- Concrete exchange. -/
def exch0 : BrainExchange := { hash := "h0", input := "i", output := "o", exid := none }

/-- Concrete episode belonging to session `sess`. -/
def ep0 : BrainEpisode := { hash := "e0", exid := some "sess", exchanges := [exch0] }

/-- Concrete one-episode prior series. -/
def prior0 : BrainSeries := { hash := "s0", exid := some "sess", episodes := [ep0] }

/-- Concrete decoder state with observed token counts and no vendor cost. -/
def s5 : DecoderState :=
  { initState with
      tokensInput := 2
      tokensOutput := 3
      tokensCacheGet := 5
      tokensCacheSet := 7 }

/-- Concrete brain output used as the awaited decode result in supervisor
witnesses. -/
def out0 : BrainOutput :=
  { output := "o"
    metrics :=
      { size :=
          { tokens := { input := 0, output := 0, cache := { get := 0, set := 0 } }
            chars := { input := 0, output := 0, cache := { get := 0, set := 0 } } }
        cost :=
          { time := { milliseconds := 0 }
            cash := { total := 0
                      deets := { input := 0, output := 0,
                                 cache := { get := 0, set := 0 } } } } }
    episode := ep0
    series := prior0 }

/-! ## Witnesses -/

/-- Witness for C1 at a concrete stream: one chunk holding the framed
`result` line `R`, followed by a stray end-of-stream. -/
theorem c1_witness :
    ((decoderRun sha0 inp0 parse0 initState []).resolved = false)
    ∧ (hasResultLine parse0
        ((decoderRun sha0 inp0 parse0 initState []).buffer ++ "R\n") = true)
    ∧ ((decoderRun sha0 inp0 parse0 initState
          ([] ++ StreamAction.data "R\n" :: [StreamAction.endOfStream])).settledCount = 1)
    ∧ ((decoderRun sha0 inp0 parse0 initState
          ([] ++ StreamAction.data "R\n" :: [StreamAction.endOfStream])).detachCount = 1) :=
  ⟨rfl, by decide,
    (c1_finalizes_exactly_once sha0 inp0 parse0 [] [StreamAction.endOfStream] "R\n"
      rfl (by decide)).1,
    (c1_finalizes_exactly_once sha0 inp0 parse0 [] [StreamAction.endOfStream] "R\n"
      rfl (by decide)).2⟩

/-- Witness for C2 at a concrete prior series and session. -/
theorem c2_witness :
    (prior0.episodes.getLast? = some ep0)
    ∧ (ep0.exid = some "sess")
    ∧ (("sess" == "sess" || jsStartsWith "sess" ("sess" ++ "/")) = true)
    ∧ ((reconcile sha0 (some prior0) exch0 (some "sess") true).2.episodes.length
        = prior0.episodes.length + 1)
    ∧ ((reconcile sha0 (some prior0) exch0 (some "sess") true).1.exid
        = some ("sess" ++ "/" ++ toString prior0.episodes.length)) :=
  ⟨rfl, rfl, by decide,
    (c2_compaction_split sha0 prior0 exch0 "sess" ep0 "sess" rfl rfl (by decide)).1,
    (c2_compaction_split sha0 prior0 exch0 "sess" ep0 "sess" rfl rfl (by decide)).2.2.1⟩

/-- Witness for C3 at a concrete prior series and session. -/
theorem c3_witness :
    (prior0.episodes.getLast? = some ep0)
    ∧ (ep0.exid = some "sess")
    ∧ ((reconcile sha0 (some prior0) exch0 (some "sess") false).2.episodes.length
        = prior0.episodes.length)
    ∧ ((reconcile sha0 (some prior0) exch0 (some "sess") false).1.exchanges
        = ep0.exchanges ++ [exch0]) :=
  ⟨rfl, rfl,
    (c3_continuation sha0 prior0 exch0 "sess" ep0 rfl rfl).1,
    (c3_continuation sha0 prior0 exch0 "sess" ep0 rfl rfl).2.2.2.1⟩

/-- Witness for C4 at a concrete sessionless, compactionless input. -/
theorem c4_witness :
    (isSameContextWindow none none false = false)
    ∧ (isCompactionSplit none none false = false)
    ∧ ((reconcile sha0 none exch0 none false).2.episodes
        = episodesPriorOf none ++ [(reconcile sha0 none exch0 none false).1])
    ∧ ((reconcile sha0 none exch0 none false).1.exchanges = [exch0]) :=
  ⟨rfl, rfl,
    (c4_new_window sha0 none exch0 none false rfl rfl).1,
    (c4_new_window sha0 none exch0 none false rfl rfl).2.2.1⟩

/-- Witness for C5 at concrete token counts and rate strings
(0.5·2 + 2·3 + 4·5 + 8·7 = 83). -/
theorem c5_witness :
    (s5.costUsd = none)
    ∧ ((buildOutput sha0 inp0 s5).metrics.cost.cash.total
        = getOneNumericFromIsoPrice rates0.input * ((2 : Nat) : Rat)
          + getOneNumericFromIsoPrice rates0.output * ((3 : Nat) : Rat)
          + getOneNumericFromIsoPrice rates0.cache.get * ((5 : Nat) : Rat)
          + getOneNumericFromIsoPrice rates0.cache.set * ((7 : Nat) : Rat))
    ∧ ((buildOutput sha0 inp0 s5).metrics.cost.cash.total = 83) :=
  ⟨rfl, (c5_cost_accounting sha0 inp0 s5).2.2.2.2.2.1 rfl, by
    rw [(c5_cost_accounting sha0 inp0 s5).2.2.2.2.2.1 rfl]
    have e1 : getOneNumericFromIsoPrice inp0.rates.input
        = ((0 : Nat) : Rat) + ((5 : Nat) : Rat) / ((10 : Rat) ^ (1 : Nat)) := rfl
    have e2 : getOneNumericFromIsoPrice inp0.rates.output = ((2 : Nat) : Rat) := rfl
    have e3 : getOneNumericFromIsoPrice inp0.rates.cache.get = ((4 : Nat) : Rat) := rfl
    have e4 : getOneNumericFromIsoPrice inp0.rates.cache.set = ((8 : Nat) : Rat) := rfl
    rw [e1, e2, e3, e4, show s5.tokensInput = 2 from rfl,
      show s5.tokensOutput = 3 from rfl, show s5.tokensCacheGet = 5 from rfl,
      show s5.tokensCacheSet = 7 from rfl]
    norm_num⟩

/-- Witness for C6 at the empty stream: end-of-stream with nothing
accumulated still settles once, with empty output and null session id. -/
theorem c6_witness :
    ((decoderRun sha0 inp0 parse0 initState
        (List.map StreamAction.data [])).resolved = false)
    ∧ ((decoderRun sha0 inp0 parse0 initState
        (List.map StreamAction.data [] ++ [StreamAction.endOfStream])).resultText = none)
    ∧ ((decoderRun sha0 inp0 parse0 initState
        (List.map StreamAction.data [] ++ [StreamAction.endOfStream])).settledCount = 1)
    ∧ (∃ out,
        (decoderRun sha0 inp0 parse0 initState
          (List.map StreamAction.data [] ++ [StreamAction.endOfStream])).resolution
            = some (Except.ok out)
        ∧ out.output = (decoderRun sha0 inp0 parse0 initState
            (List.map StreamAction.data [] ++ [StreamAction.endOfStream])).textAccumulated
        ∧ out.series.exid = (decoderRun sha0 inp0 parse0 initState
            (List.map StreamAction.data [] ++ [StreamAction.endOfStream])).sessionId) :=
  ⟨rfl, rfl,
    (c6_end_without_result sha0 inp0 parse0 [] rfl rfl).1,
    (c6_end_without_result sha0 inp0 parse0 [] rfl rfl).2⟩

/-- Witness for the amended C7 at a concrete reboot: the second boot kills
pid 0 and immediately spawns pid 1, observing no exit. -/
theorem c7_amended_witness :
    ((bootStep supInit CliMode.dispatch).childProcess = some 0)
    ∧ ((bootStep supInit CliMode.dispatch).ptyProcess = none)
    ∧ ((bootStep (bootStep supInit CliMode.dispatch) CliMode.dispatch).trace
        = (bootStep supInit CliMode.dispatch).trace
            ++ [SupOp.sigterm 0, SupOp.spawnProc 1 CliMode.dispatch])
    ∧ ((bootStep (bootStep supInit CliMode.dispatch) CliMode.dispatch).exitedPids
        = (bootStep supInit CliMode.dispatch).exitedPids) :=
  ⟨rfl, rfl,
    (c7_amended_boot_immediate (bootStep supInit CliMode.dispatch) 0
      CliMode.dispatch rfl rfl).1,
    (c7_amended_boot_immediate (bootStep supInit CliMode.dispatch) 0
      CliMode.dispatch rfl rfl).2.1⟩

/-- Witness for C9 at concrete states: the unbooted handle and a handle
booted in interact mode. -/
theorem c9_witness :
    (supInit.inst = none)
    ∧ ((bootStep supInit CliMode.interact).inst
        = some { pid := 0, mode := CliMode.interact })
    ∧ (askStep supInit "q" out0 = Except.error (SupError.unexpected
        "cannot ask: no live process. call executor.boot first"))
    ∧ (writeStep supInit "d" = Except.error (SupError.unexpected
        "cannot write: no live process"))
    ∧ (askStep (bootStep supInit CliMode.interact) "q" out0
        = Except.error (SupError.unexpected
            "cannot ask: handle is in interact mode. boot dispatch first")) :=
  ⟨rfl, rfl,
    (c9_guard_errors "q" "d" out0 supInit rfl (bootStep supInit CliMode.interact)
      { pid := 0, mode := CliMode.interact } rfl rfl).1,
    (c9_guard_errors "q" "d" out0 supInit rfl (bootStep supInit CliMode.interact)
      { pid := 0, mode := CliMode.interact } rfl rfl).2.2.1,
    (c9_guard_errors "q" "d" out0 supInit rfl (bootStep supInit CliMode.interact)
      { pid := 0, mode := CliMode.interact } rfl rfl).2.2.2.1⟩

/-- Witness for C10 at a concrete envelope without a session id field and a
concrete run from a state with an observed session id. -/
theorem c10_witness :
    (envelopeSessionField Envelope.compact_boundary = none)
    ∧ ((handleEnvelope sha0 inp0 initState Envelope.compact_boundary).sessionId
        = initState.sessionId)
    ∧ (({ initState with sessionId := some "sess" } : DecoderState).sessionId.isSome = true)
    ∧ ((decoderRun sha0 inp0 parse0 { initState with sessionId := some "sess" }
        [StreamAction.data "x\n", StreamAction.endOfStream]).sessionId.isSome = true) :=
  ⟨rfl,
    (c10_sessionid_monotone sha0 inp0 parse0).1 initState Envelope.compact_boundary rfl,
    rfl,
    (c10_sessionid_monotone sha0 inp0 parse0).2 _
      [StreamAction.data "x\n", StreamAction.endOfStream] rfl⟩

end Khlone
